import Mathlib

/-!
Shallow embedding of `simpleperf stat` (system/extras, `simpleperf/cmd_stat.cpp`).

C++ `double` values (multiplexing scale factors, rates, durations) are modelled
as exact rationals `ℚ`; `uint64_t` accumulation is modelled on `ℕ` with an
explicit `% 2 ^ 64` at each accumulating step.  Strings produced with
`StringPrintf` are rebuilt with an explicit fixed-point decimal formatter.
-/

/-- Modulus of `uint64_t` arithmetic. -/
def U64 : Nat := 2 ^ 64

/-- One aggregated event summary (struct `CounterSummary` of `cmd_stat.cpp`).
The `readable_count` and `comment` strings, which the constructor and
`GenerateComments` compute from the other fields, are modelled as the functions
`ReadableCountValue` and `GetCommentForSummary` of those fields. -/
structure CounterSummary where
  type_name : String
  modifier : String
  group_id : Nat
  count : Nat
  scale : ℚ
  auto_generated : Bool
deriving DecidableEq, Repr

/-- `fabs` on the rational model of `double`. -/
def ratAbs (q : ℚ) : ℚ := if q < 0 then -q else q

/-- `CounterSummary::IsMonitoredAllTheTime`: the scale is within
`SCALE_ERROR_LIMIT = 1e-5` of `1.0`. -/
def CounterSummary.IsMonitoredAllTheTime (s : CounterSummary) : Bool :=
  ratAbs (s.scale - 1) < 1 / 100000

/-- `CounterSummary::IsMonitoredAtTheSameTime`: same group, or both summaries
are monitored all the time. -/
def CounterSummary.IsMonitoredAtTheSameTime (s other : CounterSummary) : Bool :=
  if s.group_id = other.group_id then true
  else s.IsMonitoredAllTheTime && other.IsMonitoredAllTheTime

/-- `CounterSummaries::FindSummary`: first summary with the given type name and
modifier, scanning the collection in order. -/
def FindSummary (l : List CounterSummary) (type_name modifier : String) :
    Option CounterSummary :=
  l.find? (fun s => s.type_name == type_name && s.modifier == modifier)

/-- The summary that `AutoGenerateSummaries` constructs from a user-space
summary `s` and its kernel-space partner `other`:
`CounterSummary(s.type_name, "", s.group_id, s.count + other->count, s.scale,
true, csv)`.  The `uint64_t` addition wraps. -/
def genSummary (s other : CounterSummary) : CounterSummary :=
  { type_name := s.type_name
    modifier := ""
    group_id := s.group_id
    count := (s.count + other.count) % U64
    scale := s.scale
    auto_generated := true }

/-- Number of user-space-only (`modifier == "u"`) summaries; used only as a
termination measure for the auto-generation loop. -/
def countU : List CounterSummary → Nat
  | [] => 0
  | s :: rest => (if s.modifier = "u" then 1 else 0) + countU rest

theorem countU_append (a b : List CounterSummary) :
    countU (a ++ b) = countU a + countU b := by
  induction a with
  | nil => simp [countU]
  | cons s rest ih => simp [countU, ih]; ring

/-- The loop of `CounterSummaries::AutoGenerateSummaries`.  The C++ loop walks
`summaries_` by increasing index while `AddSummary` appends to the same vector,
so freshly generated summaries are themselves visited; here `acc` holds the
already visited prefix and `pending` the rest, the full vector being
`acc ++ pending`, and a generated summary is appended at the end of
`pending`. -/
def autoGenLoop (acc pending : List CounterSummary) : List CounterSummary :=
  match pending with
  | [] => acc
  | s :: rest =>
    if hu : s.modifier = "u" then
      match FindSummary (acc ++ s :: rest) s.type_name "k" with
      | some other =>
        if other.IsMonitoredAtTheSameTime s then
          if FindSummary (acc ++ s :: rest) s.type_name "" = none then
            autoGenLoop (acc ++ [s]) (rest ++ [genSummary s other])
          else autoGenLoop (acc ++ [s]) rest
        else autoGenLoop (acc ++ [s]) rest
      | none => autoGenLoop (acc ++ [s]) rest
    else autoGenLoop (acc ++ [s]) rest
termination_by 2 * countU pending + pending.length
decreasing_by
  all_goals simp [countU_append, countU, genSummary, hu] <;> omega

/-- `CounterSummaries::AutoGenerateSummaries`. -/
def AutoGenerateSummaries (l : List CounterSummary) : List CounterSummary :=
  autoGenLoop [] l

/-- Fixed-point decimal rendering of a (nonnegative) rational with `prec`
digits after the point, the model of `StringPrintf("%.{prec}lf", ...)`:
round to the nearest multiple of `10 ^ (-prec)` and print all `prec`
fractional digits. -/
def fmtFixedNat (prec n : Nat) : String :=
  let ds := (Nat.repr n).data
  let ds := if ds.length ≤ prec then
      List.replicate (prec + 1 - ds.length) '0' ++ ds
    else ds
  String.mk (ds.take (ds.length - prec) ++ '.' :: ds.drop (ds.length - prec))

/-- See `fmtFixedNat`: scale the (nonnegative) rational by `10 ^ prec`, round
to the nearest integer and print with the decimal point re-inserted. -/
def fmtFixed (prec : Nat) (q : ℚ) : String :=
  fmtFixedNat prec (⌊q * 10 ^ prec + 1 / 2⌋).toNat

theorem fmtFixed_eq (prec : Nat) (q : ℚ) (n : ℤ)
    (h : ⌊q * 10 ^ prec + 1 / 2⌋ = n) :
    fmtFixed prec q = fmtFixedNat prec n.toNat := by
  unfold fmtFixed; rw [h]

/-- Suffix test on the character level, the model of
`android::base::EndsWith`. -/
def endsWithChars (s suffix : String) : Bool :=
  suffix.data.isSuffixOf s.data

/-- `std::string::substr(0, s.size() - n)` — drop the last `n` characters. -/
def strDropRight (s : String) (n : Nat) : String :=
  String.mk (s.data.take (s.data.length - n))

/-- The separator `sap_mid` of `GetCommentForSummary`: a comma in csv mode, a
space otherwise. -/
def sapMid (csv : Bool) : String := if csv then "," else " "

/-- The early-returning `instructions` branch of
`CounterSummaries::GetCommentForSummary`: cycles per instruction when a
`cpu-cycles` summary with the same modifier is monitored at the same time;
`none` means fall through. -/
def commentInstructions (csv : Bool) (l : List CounterSummary)
    (s : CounterSummary) : Option String :=
  if s.type_name == "instructions" && s.count != 0 then
    match FindSummary l "cpu-cycles" s.modifier with
    | some other =>
      if other.IsMonitoredAtTheSameTime s then
        some (fmtFixed 6 ((other.count : ℚ) / (s.count : ℚ)) ++ sapMid csv ++
          "cycles per instruction")
      else none
    | none => none
  else none

/-- Reference type name paired with a `*-misses` type name in
`GetCommentForSummary`. -/
def missesOtherName (type_name : String) : String :=
  if type_name = "cache-misses" then "cache-references"
  else if type_name = "branch-misses" then "branch-instructions"
  else strDropRight type_name 7 ++ "s"

/-- The early-returning `*-misses` branch of
`CounterSummaries::GetCommentForSummary`: miss-rate percentage against the
paired reference summary; `none` means fall through. -/
def commentMisses (csv : Bool) (l : List CounterSummary)
    (s : CounterSummary) : Option String :=
  if endsWithChars s.type_name "-misses" then
    match FindSummary l (missesOtherName s.type_name) s.modifier with
    | some other =>
      if other.IsMonitoredAtTheSameTime s && other.count != 0 then
        some (fmtFixed 6 ((s.count : ℚ) / (other.count : ℚ) * 100) ++ "%" ++
          sapMid csv ++ "miss rate")
      else none
    | none => none
  else none

/-- `CounterSummaries::GetCommentForSummary`.  `l` is the summary collection
`summaries_` that `FindSummary` scans. -/
def GetCommentForSummary (csv : Bool) (l : List CounterSummary)
    (s : CounterSummary) (duration_in_sec : ℚ) : String :=
  if s.type_name = "task-clock" then
    fmtFixed 6 (((s.count : ℚ) / 10 ^ 9) / (duration_in_sec / s.scale)) ++
      sapMid csv ++ "cpus used"
  else if s.type_name = "cpu-clock" then ""
  else if s.type_name = "cpu-cycles" then
    fmtFixed 6 ((s.count : ℚ) / (duration_in_sec / s.scale) / 10 ^ 9) ++
      sapMid csv ++ "GHz"
  else
    match commentInstructions csv l s with
    | some c => c
    | none =>
      match commentMisses csv l s with
      | some c => c
      | none =>
        let rate := (s.count : ℚ) / (duration_in_sec / s.scale)
        if 10 ^ 9 < rate then fmtFixed 3 (rate / 10 ^ 9) ++ sapMid csv ++ "G/sec"
        else if 10 ^ 6 < rate then fmtFixed 3 (rate / 10 ^ 6) ++ sapMid csv ++ "M/sec"
        else if 10 ^ 3 < rate then fmtFixed 3 (rate / 10 ^ 3) ++ sapMid csv ++ "K/sec"
        else fmtFixed 3 rate ++ sapMid csv ++ "/sec"

/-- The comma-insertion loop of `CounterSummary::ReadableCountValue`,
expressed on the reversed digit list: the C++ loop walks indices from the
least-significant end with a counter `j` cycling `1,2,3` and inserts `','`
after every third digit unless no digit follows (`i > 0`). -/
def commaRev : List Char → Nat → List Char
  | [], _ => []
  | c :: rest, j =>
    if j = 3 ∧ rest ≠ [] then c :: ',' :: commaRev rest 1
    else c :: commaRev rest (j + 1)

/-- `CounterSummary::ReadableCountValue`. -/
def ReadableCountValue (csv : Bool) (s : CounterSummary) : String :=
  if s.type_name = "cpu-clock" ∨ s.type_name = "task-clock" then
    fmtFixed 6 ((s.count : ℚ) / 10 ^ 6) ++ "(ms)"
  else
    let str := Nat.repr s.count
    if csv then str
    else String.mk (commaRev str.data.reverse 1).reverse

/-- One raw readout (`PerfCounter` value of a `CounterInfo`): cumulative
count, enabled time and running time, all `uint64_t`. -/
structure PerfCounter where
  value : Nat
  time_enabled : Nat
  time_running : Nat
deriving DecidableEq, Repr

/-- One step of the accumulation loop of `StatCommand::ShowCounters`: a
readout with zero running time is skipped; the three `uint64_t` sums wrap. -/
def aggStep (acc : Nat × Nat × Nat) (c : PerfCounter) : Nat × Nat × Nat :=
  if c.time_running != 0 then
    ((acc.1 + c.value) % U64, (acc.2.1 + c.time_enabled) % U64,
      (acc.2.2 + c.time_running) % U64)
  else acc

/-- The `(value_sum, time_enabled_sum, time_running_sum)` accumulation of
`StatCommand::ShowCounters` over the readouts of one event selection. -/
def aggregateCounters (counters : List PerfCounter) : Nat × Nat × Nat :=
  counters.foldl aggStep (0, 0, 0)

/-- The scale computation of `StatCommand::ShowCounters`:
`scale = time_enabled_sum / time_running_sum` when
`time_running_sum < time_enabled_sum && time_running_sum != 0`, else `1.0`. -/
def computeScale (time_enabled_sum time_running_sum : Nat) : ℚ :=
  if time_running_sum < time_enabled_sum ∧ time_running_sum ≠ 0 then
    (time_enabled_sum : ℚ) / (time_running_sum : ℚ)
  else 1

/-- The `CounterSummary` that `StatCommand::ShowCounters` emits for one event
selection. -/
def makeSummary (name modifier : String) (group_id : Nat)
    (counters : List PerfCounter) : CounterSummary :=
  { type_name := name
    modifier := modifier
    group_id := group_id
    count := (aggregateCounters counters).1
    scale := computeScale (aggregateCounters counters).2.1
      (aggregateCounters counters).2.2
    auto_generated := false }

/-- Readouts with nonzero running time, the ones the accumulation loop keeps. -/
def includedCounters (counters : List PerfCounter) : List PerfCounter :=
  counters.filter (fun c => c.time_running != 0)

/-- Mathematical (non-wrapping) sum of the `value` fields. -/
def valuesTotal (counters : List PerfCounter) : Nat :=
  (counters.map PerfCounter.value).sum

/-- Mathematical (non-wrapping) sum of the `time_enabled` fields. -/
def enabledTotal (counters : List PerfCounter) : Nat :=
  (counters.map PerfCounter.time_enabled).sum

/-- Mathematical (non-wrapping) sum of the `time_running` fields. -/
def runningTotal (counters : List PerfCounter) : Nat :=
  (counters.map PerfCounter.time_running).sum

/-- The target-validation step of `StatCommand::ParseOptions` after `tid_set`
has been merged into `monitored_threads_`; the privilege check `IsRoot()` is
external and enters as the parameter `is_root`. -/
def checkMonitoredTarget (system_wide_collection : Bool)
    (monitored_threads : List Nat) (is_root : Bool) : Bool :=
  if system_wide_collection && !monitored_threads.isEmpty then false
  else if system_wide_collection && !is_root then false
  else true

/-- Control phase of `StatCommand::Run` around the measurement-window loop
`while (!signaled) sleep(1);`: either still inside the loop, or past it at
the counter-read-and-report stage. -/
inductive StatRunPhase where
  | counting : StatRunPhase
  | reporting : StatRunPhase
deriving DecidableEq, Repr

/-- One iteration of the measurement-window loop: the loop exits to the
report stage exactly when the `signaled` flag reads true. -/
def statLoopStep (signaled : Bool) (p : StatRunPhase) : StatRunPhase :=
  match p with
  | .counting => if signaled then .reporting else .counting
  | .reporting => .reporting

/-- Run the measurement-window loop over a finite trace of reads of the
`signaled` flag. -/
def statLoopRun (signals : List Bool) (p : StatRunPhase) : StatRunPhase :=
  signals.foldl (fun q b => statLoopStep b q) p

/-! ## Helper lemmas about the aggregation loop -/

theorem foldl_aggStep_filter (cs : List PerfCounter) (acc : Nat × Nat × Nat) :
    cs.foldl aggStep acc = (includedCounters cs).foldl aggStep acc := by
  induction cs generalizing acc with
  | nil => rfl
  | cons c rest ih =>
    rcases hb : (c.time_running != 0) with _ | _
    · simp only [includedCounters, List.filter_cons, hb, List.foldl_cons,
        aggStep, if_neg (by simp [hb] : ¬(c.time_running != 0) = true)]
      simpa [includedCounters] using ih acc
    · simp only [includedCounters, List.filter_cons, hb, List.foldl_cons]
      simpa [includedCounters] using ih (aggStep acc c)

theorem foldl_aggStep_all (cs : List PerfCounter)
    (h : ∀ c ∈ cs, c.time_running ≠ 0) (a b d : Nat) :
    cs.foldl aggStep (a % U64, b % U64, d % U64) =
      ((a + valuesTotal cs) % U64, (b + enabledTotal cs) % U64,
        (d + runningTotal cs) % U64) := by
  induction cs generalizing a b d with
  | nil => simp [valuesTotal, enabledTotal, runningTotal]
  | cons c rest ih =>
    have hc : (c.time_running != 0) = true := by
      simpa using h c (List.mem_cons_self c rest)
    have step : aggStep (a % U64, b % U64, d % U64) c =
        ((a + c.value) % U64, (b + c.time_enabled) % U64,
          (d + c.time_running) % U64) := by
      simp [aggStep, hc, Nat.mod_add_mod]
    have hrest : ∀ x ∈ rest, x.time_running ≠ 0 := fun x hx =>
      h x (List.mem_cons_of_mem c hx)
    calc (c :: rest).foldl aggStep (a % U64, b % U64, d % U64)
        = rest.foldl aggStep ((a + c.value) % U64, (b + c.time_enabled) % U64,
            (d + c.time_running) % U64) := by rw [List.foldl_cons, step]
      _ = ((a + c.value + valuesTotal rest) % U64,
            (b + c.time_enabled + enabledTotal rest) % U64,
            (d + c.time_running + runningTotal rest) % U64) := ih hrest _ _ _
      _ = ((a + valuesTotal (c :: rest)) % U64,
            (b + enabledTotal (c :: rest)) % U64,
            (d + runningTotal (c :: rest)) % U64) := by
          simp [valuesTotal, enabledTotal, runningTotal]; ring_nf; simp

theorem aggregateCounters_eq (cs : List PerfCounter) :
    aggregateCounters cs =
      (valuesTotal (includedCounters cs) % U64,
        enabledTotal (includedCounters cs) % U64,
        runningTotal (includedCounters cs) % U64) := by
  have hmem : ∀ c ∈ includedCounters cs, c.time_running ≠ 0 := by
    intro c hcmem
    have := List.of_mem_filter hcmem
    simpa using this
  have h0 : ((0 : Nat), (0 : Nat), (0 : Nat)) =
      ((0 : Nat) % U64, (0 : Nat) % U64, (0 : Nat) % U64) := by
    norm_num
  calc aggregateCounters cs
      = (includedCounters cs).foldl aggStep (0, 0, 0) :=
        foldl_aggStep_filter cs _
    _ = ((0 + valuesTotal (includedCounters cs)) % U64,
          (0 + enabledTotal (includedCounters cs)) % U64,
          (0 + runningTotal (includedCounters cs)) % U64) := by
        rw [h0]; exact foldl_aggStep_all _ hmem 0 0 0
    _ = _ := by simp

theorem includedCounters_eq_nil_of_runningTotal_eq_zero (cs : List PerfCounter)
    (h : runningTotal (includedCounters cs) = 0) : includedCounters cs = [] := by
  cases hic : includedCounters cs with
  | nil => rfl
  | cons c rest =>
    exfalso
    have hcmem : c ∈ includedCounters cs := by rw [hic]; exact List.mem_cons_self c rest
    have hcr : c.time_running ≠ 0 := by simpa using List.of_mem_filter hcmem
    rw [hic] at h
    simp only [runningTotal, List.map_cons, List.sum_cons] at h
    omega

/-- Claim C7: a readout whose running time is zero contributes to none of the
three sums — aggregating the full readout list gives the same
`(value_sum, time_enabled_sum, time_running_sum)` as aggregating only the
readouts with nonzero running time. -/
theorem aggregateCounters_eq_aggregate_included (counters : List PerfCounter) :
    aggregateCounters counters = aggregateCounters (includedCounters counters) := by
  have h2 : includedCounters (includedCounters counters) = includedCounters counters := by
    simp [includedCounters, List.filter_filter]
  rw [aggregateCounters_eq counters, aggregateCounters_eq (includedCounters counters), h2]

/-- Claim C1: for every aggregated summary built by `ShowCounters` from a list
of readouts (the time sums staying inside `uint64_t` range), the scale is at
least `1.0`, it equals `1.0` exactly when the running-time sum is at least the
enabled-time sum, and it is `1.0` when every readout is excluded. -/
theorem makeSummary_scale_ge_one (name modifier : String) (group_id : Nat)
    (counters : List PerfCounter)
    (hE : enabledTotal (includedCounters counters) < U64)
    (hR : runningTotal (includedCounters counters) < U64) :
    1 ≤ (makeSummary name modifier group_id counters).scale ∧
    ((makeSummary name modifier group_id counters).scale = 1 ↔
      enabledTotal (includedCounters counters) ≤
        runningTotal (includedCounters counters)) ∧
    ((∀ c ∈ counters, c.time_running = 0) →
      (makeSummary name modifier group_id counters).scale = 1) := by
  have hscale : (makeSummary name modifier group_id counters).scale =
      computeScale (enabledTotal (includedCounters counters))
        (runningTotal (includedCounters counters)) := by
    simp [makeSummary, aggregateCounters_eq, Nat.mod_eq_of_lt hE,
      Nat.mod_eq_of_lt hR]
  set E := enabledTotal (includedCounters counters) with hEdef
  set R := runningTotal (includedCounters counters) with hRdef
  have hE0 : R = 0 → E = 0 := by
    intro h0
    have : includedCounters counters = [] :=
      includedCounters_eq_nil_of_runningTotal_eq_zero counters h0
    simp [hEdef, enabledTotal, this]
  refine ⟨?_, ?_, ?_⟩
  · rw [hscale]
    unfold computeScale
    split
    · rename_i hcond
      have hRpos : (0 : ℚ) < (R : ℚ) := by
        exact_mod_cast Nat.pos_of_ne_zero hcond.2
      rw [le_div_iff hRpos, one_mul]
      exact_mod_cast le_of_lt hcond.1
    · exact le_refl 1
  · rw [hscale]
    unfold computeScale
    split
    · rename_i hcond
      constructor
      · intro heq
        have hRne : (R : ℚ) ≠ 0 := by
          exact_mod_cast hcond.2
        have : (E : ℚ) = (R : ℚ) := by
          rw [div_eq_one_iff_eq hRne] at heq
          exact heq
        have : E = R := by exact_mod_cast this
        omega
      · intro hle
        omega
    · rename_i hcond
      rw [not_and_or] at hcond
      rcases hcond with hcond | hcond
      · simp only [not_lt] at hcond
        exact ⟨fun _ => hcond, fun _ => rfl⟩
      · rw [not_not] at hcond
        have := hE0 hcond
        exact ⟨fun _ => by omega, fun _ => rfl⟩
  · intro hall
    have hnil : includedCounters counters = [] := by
      simp only [includedCounters, List.filter_eq_nil]
      intro c hc
      simp [hall c hc]
    rw [hscale]
    have hR0 : R = 0 := by simp [hRdef, runningTotal, hnil]
    simp [computeScale, hR0]

/-- Witness for C1 at a concrete readout list: one included readout
(value 10, enabled 4, running 2) and one excluded readout. -/
theorem makeSummary_scale_ge_one_witness :
    (enabledTotal (includedCounters [⟨10, 4, 2⟩, ⟨0, 5, 0⟩]) < U64 ∧
      runningTotal (includedCounters [⟨10, 4, 2⟩, ⟨0, 5, 0⟩]) < U64) ∧
    (1 ≤ (makeSummary "cpu-cycles" "" 0 [⟨10, 4, 2⟩, ⟨0, 5, 0⟩]).scale ∧
      ((makeSummary "cpu-cycles" "" 0 [⟨10, 4, 2⟩, ⟨0, 5, 0⟩]).scale = 1 ↔
        enabledTotal (includedCounters [⟨10, 4, 2⟩, ⟨0, 5, 0⟩]) ≤
          runningTotal (includedCounters [⟨10, 4, 2⟩, ⟨0, 5, 0⟩])) ∧
      ((∀ c ∈ [(⟨10, 4, 2⟩ : PerfCounter), ⟨0, 5, 0⟩], c.time_running = 0) →
        (makeSummary "cpu-cycles" "" 0 [⟨10, 4, 2⟩, ⟨0, 5, 0⟩]).scale = 1)) :=
  ⟨⟨by decide, by decide⟩,
    makeSummary_scale_ge_one "cpu-cycles" "" 0 [⟨10, 4, 2⟩, ⟨0, 5, 0⟩]
      (by decide) (by decide)⟩

/-- Claim C8: the target-validation step of `ParseOptions` fails exactly when
the system-wide flag is combined with a nonempty explicit thread/process id
set, or when the system-wide flag is requested without root privilege. -/
theorem checkMonitoredTarget_false_iff (system_wide : Bool)
    (monitored_threads : List Nat) (is_root : Bool) :
    checkMonitoredTarget system_wide monitored_threads is_root = false ↔
      ((system_wide = true ∧ monitored_threads ≠ []) ∨
        (system_wide = true ∧ is_root = false)) := by
  cases system_wide <;> cases is_root <;> cases monitored_threads <;>
    simp [checkMonitoredTarget]

/-- Claim C9: while no termination signal has set the `signaled` flag, the
measurement-window loop of `StatCommand::Run` stays in the loop and never
reaches the counter-read-and-report stage. -/
theorem statLoopRun_stays_counting (signals : List Bool)
    (h : ∀ b ∈ signals, b = false) :
    statLoopRun signals StatRunPhase.counting = StatRunPhase.counting ∧
      statLoopRun signals StatRunPhase.counting ≠ StatRunPhase.reporting := by
  have hmain : statLoopRun signals StatRunPhase.counting =
      StatRunPhase.counting := by
    induction signals with
    | nil => rfl
    | cons b rest ih =>
      have hb : b = false := h b (List.mem_cons_self b rest)
      have hrest : ∀ x ∈ rest, x = false := fun x hx =>
        h x (List.mem_cons_of_mem b hx)
      calc statLoopRun (b :: rest) StatRunPhase.counting
          = statLoopRun rest (statLoopStep b StatRunPhase.counting) := rfl
        _ = statLoopRun rest StatRunPhase.counting := by
            rw [hb]; rfl
        _ = StatRunPhase.counting := ih hrest
  exact ⟨hmain, by rw [hmain]; exact fun hcontr => StatRunPhase.noConfusion hcontr⟩

/-- Witness for C9 on a three-iteration all-false signal trace. -/
theorem statLoopRun_stays_counting_witness :
    (∀ b ∈ [false, false, false], b = false) ∧
    (statLoopRun [false, false, false] StatRunPhase.counting =
        StatRunPhase.counting ∧
      statLoopRun [false, false, false] StatRunPhase.counting ≠
        StatRunPhase.reporting) :=
  ⟨by decide, statLoopRun_stays_counting [false, false, false] (by decide)⟩

/-- Claim C10: `IsMonitoredAtTheSameTime` is reflexive and symmetric, so
cross-referencing between two summaries does not depend on which of the two
initiates the check. -/
theorem isMonitoredAtTheSameTime_refl_and_symm :
    (∀ s : CounterSummary, s.IsMonitoredAtTheSameTime s = true) ∧
    (∀ a b : CounterSummary,
      a.IsMonitoredAtTheSameTime b = b.IsMonitoredAtTheSameTime a) := by
  constructor
  · intro s
    simp [CounterSummary.IsMonitoredAtTheSameTime]
  · intro a b
    unfold CounterSummary.IsMonitoredAtTheSameTime
    by_cases h : a.group_id = b.group_id
    · rw [if_pos h, if_pos h.symm]
    · have h' : ¬b.group_id = a.group_id := fun e => h e.symm
      simp [h, h', Bool.and_comm]

/-! ## Digit grouping -/

/-- Digit grouping as the spec words it: a separator every three digits
counted from the least-significant end.  Used to compare the comma-insertion
loop of `ReadableCountValue` against the specified behaviour. -/
def groupThreesFromRight (l : List Char) : List Char :=
  if h : l.length ≤ 3 then l
  else groupThreesFromRight (l.take (l.length - 3)) ++ ',' :: l.drop (l.length - 3)
termination_by l.length
decreasing_by simp [List.length_take]; omega

theorem commaRev_spec_aux (n : Nat) : ∀ r : List Char, r.length ≤ n →
    (commaRev r 1).reverse = groupThreesFromRight r.reverse := by
  induction n with
  | zero =>
    intro r hr
    have hnil : r = [] := List.eq_nil_of_length_eq_zero (Nat.le_zero.mp hr)
    subst hnil
    simp [commaRev, groupThreesFromRight]
  | succ n ih =>
    intro r hr
    rcases r with _ | ⟨a, _ | ⟨b, _ | ⟨c, _ | ⟨d, t⟩⟩⟩⟩
    · rw [groupThreesFromRight]; simp [commaRev]
    · rw [groupThreesFromRight]; norm_num [commaRev]
    · rw [groupThreesFromRight]; norm_num [commaRev]
    · rw [groupThreesFromRight]; norm_num [commaRev]
    · have h1 : commaRev (a :: b :: c :: d :: t) 1 =
          a :: b :: c :: ',' :: commaRev (d :: t) 1 := by
        conv_lhs => rw [commaRev]
        rw [if_neg (by norm_num)]
        conv_lhs => rw [commaRev]
        rw [if_neg (by norm_num)]
        conv_lhs => rw [commaRev]
        rw [if_pos ⟨rfl, List.cons_ne_nil d t⟩]
      have hrev : (a :: b :: c :: d :: t).reverse =
          (d :: t).reverse ++ [c, b, a] := by simp
      have hlen : ((d :: t).reverse ++ [c, b, a]).length = (d :: t).length + 3 := by
        simp
      have hgt : ¬((d :: t).reverse ++ [c, b, a]).length ≤ 3 := by
        rw [hlen]; simp
      have hih : (commaRev (d :: t) 1).reverse = groupThreesFromRight (d :: t).reverse := by
        apply ih
        simp only [List.length_cons] at hr ⊢
        omega
      rw [h1, hrev, groupThreesFromRight, dif_neg hgt]
      have htake : (((d :: t).reverse ++ [c, b, a]).take
          (((d :: t).reverse ++ [c, b, a]).length - 3)) = (d :: t).reverse := by
        rw [hlen]
        have : (d :: t).length + 3 - 3 = (d :: t).reverse.length := by simp
        rw [this, List.take_left]
      have hdrop : (((d :: t).reverse ++ [c, b, a]).drop
          (((d :: t).reverse ++ [c, b, a]).length - 3)) = [c, b, a] := by
        rw [hlen]
        have : (d :: t).length + 3 - 3 = (d :: t).reverse.length := by simp
        rw [this, List.drop_left]
      rw [htake, hdrop, ← hih]
      simp

theorem commaRev_reverse_eq (l : List Char) :
    (commaRev l.reverse 1).reverse = groupThreesFromRight l := by
  have h := commaRev_spec_aux l.reverse.length l.reverse (le_refl _)
  rwa [List.reverse_reverse] at h

/-- Claim C6: readable-count formatting — clock-type counts are divided by
`1e6` and printed as decimal milliseconds; any other count is its decimal
digit string, grouped in threes from the least-significant end in table mode
and ungrouped in machine-parsable (csv) mode. -/
theorem readableCountValue_spec (csv : Bool) (s : CounterSummary) :
    ReadableCountValue csv s =
      if s.type_name = "cpu-clock" ∨ s.type_name = "task-clock" then
        fmtFixed 6 ((s.count : ℚ) / 10 ^ 6) ++ "(ms)"
      else if csv then Nat.repr s.count
      else String.mk (groupThreesFromRight (Nat.repr s.count).data) := by
  unfold ReadableCountValue
  split
  · rfl
  · cases csv
    · simp [commaRev_reverse_eq]
    · simp

/-! ## Comment derivation -/

/-- Modelled from the spec's words for claim C2: the fallback comment picks
the unit prefix by `rate ≥ 1e9 / 1e6 / 1e3` (non-strict comparisons), each
dividing the rate accordingly. -/
def specFallbackComment (csv : Bool) (s : CounterSummary) (duration_in_sec : ℚ) :
    String :=
  let rate := (s.count : ℚ) / (duration_in_sec / s.scale)
  if 10 ^ 9 ≤ rate then fmtFixed 3 (rate / 10 ^ 9) ++ sapMid csv ++ "G/sec"
  else if 10 ^ 6 ≤ rate then fmtFixed 3 (rate / 10 ^ 6) ++ sapMid csv ++ "M/sec"
  else if 10 ^ 3 ≤ rate then fmtFixed 3 (rate / 10 ^ 3) ++ sapMid csv ++ "K/sec"
  else fmtFixed 3 rate ++ sapMid csv ++ "/sec"

/-- Counterexample to claim C2 as stated: at rate exactly `1e9`
(count `1e9`, duration `1.0`, scale `1.0`) the code's strict `rate > 1e9`
comparison picks the M prefix (`"1000.000 M/sec"`), not the G prefix the
spec's `rate ≥ 1e9` rule demands (`"1.000 G/sec"`). -/
theorem getComment_fallback_cex :
    GetCommentForSummary false
        [⟨"context-switches", "", 0, 1000000000, 1, false⟩]
        ⟨"context-switches", "", 0, 1000000000, 1, false⟩ 1 ≠
      specFallbackComment false
        ⟨"context-switches", "", 0, 1000000000, 1, false⟩ 1 := by
  have hrate : (((⟨"context-switches", "", 0, 1000000000, 1, false⟩ :
      CounterSummary).count : ℚ) /
        ((1 : ℚ) / (⟨"context-switches", "", 0, 1000000000, 1, false⟩ :
          CounterSummary).scale)) = 10 ^ 9 := by
    norm_num
  have h1 : GetCommentForSummary false
      [⟨"context-switches", "", 0, 1000000000, 1, false⟩]
      ⟨"context-switches", "", 0, 1000000000, 1, false⟩ 1 = "1000.000 M/sec" := by
    unfold GetCommentForSummary
    rw [if_neg (by decide), if_neg (by decide), if_neg (by decide),
      show commentInstructions false
        [⟨"context-switches", "", 0, 1000000000, 1, false⟩]
        ⟨"context-switches", "", 0, 1000000000, 1, false⟩ = none from by decide,
      show commentMisses false
        [⟨"context-switches", "", 0, 1000000000, 1, false⟩]
        ⟨"context-switches", "", 0, 1000000000, 1, false⟩ = none from by decide]
    simp only [hrate]
    rw [if_neg (by norm_num), if_pos (by norm_num),
      fmtFixed_eq 3 ((10 ^ 9 : ℚ) / 10 ^ 6) 1000000
        (by rw [Int.floor_eq_iff] <;> norm_num)]
    rfl
  have h2 : specFallbackComment false
      ⟨"context-switches", "", 0, 1000000000, 1, false⟩ 1 = "1.000 G/sec" := by
    unfold specFallbackComment
    simp only [hrate]
    rw [if_pos (by norm_num),
      fmtFixed_eq 3 ((10 ^ 9 : ℚ) / 10 ^ 9) 1000
        (by rw [Int.floor_eq_iff] <;> norm_num)]
    rfl
  rw [h1, h2]
  decide

/-- Claim C2 (amended): for a summary hitting none of the special comment
branches, the comment is the rate `count / (duration / scale)` with unit
prefix G when the rate is strictly greater than `1e9`, M when `> 1e6`, K when
`> 1e3`, and no prefix otherwise, each dividing the rate accordingly, printed
to three decimals with the mode separator before the unit. -/
theorem getComment_fallback_rate (csv : Bool) (l : List CounterSummary)
    (s : CounterSummary) (d : ℚ)
    (h1 : s.type_name ≠ "task-clock") (h2 : s.type_name ≠ "cpu-clock")
    (h3 : s.type_name ≠ "cpu-cycles")
    (h4 : commentInstructions csv l s = none)
    (h5 : commentMisses csv l s = none) :
    GetCommentForSummary csv l s d =
      (let rate := (s.count : ℚ) / (d / s.scale)
       if 10 ^ 9 < rate then fmtFixed 3 (rate / 10 ^ 9) ++ sapMid csv ++ "G/sec"
       else if 10 ^ 6 < rate then fmtFixed 3 (rate / 10 ^ 6) ++ sapMid csv ++ "M/sec"
       else if 10 ^ 3 < rate then fmtFixed 3 (rate / 10 ^ 3) ++ sapMid csv ++ "K/sec"
       else fmtFixed 3 rate ++ sapMid csv ++ "/sec") := by
  unfold GetCommentForSummary
  rw [if_neg h1, if_neg h2, if_neg h3, h4, h5]

/-- Witness for C2 (amended) at the spec's example: count `5,000,000`,
duration `1.0`, scale `1.0`; the resulting comment is `"5.000 M/sec"`. -/
theorem getComment_fallback_rate_witness :
    ((⟨"context-switches", "", 0, 5000000, 1, false⟩ : CounterSummary).type_name
        ≠ "task-clock" ∧
      commentInstructions false [⟨"context-switches", "", 0, 5000000, 1, false⟩]
        ⟨"context-switches", "", 0, 5000000, 1, false⟩ = none ∧
      commentMisses false [⟨"context-switches", "", 0, 5000000, 1, false⟩]
        ⟨"context-switches", "", 0, 5000000, 1, false⟩ = none) ∧
    GetCommentForSummary false [⟨"context-switches", "", 0, 5000000, 1, false⟩]
        ⟨"context-switches", "", 0, 5000000, 1, false⟩ 1 =
      (let rate := ((⟨"context-switches", "", 0, 5000000, 1, false⟩ :
          CounterSummary).count : ℚ) /
            (1 / (⟨"context-switches", "", 0, 5000000, 1, false⟩ :
              CounterSummary).scale)
       if 10 ^ 9 < rate then fmtFixed 3 (rate / 10 ^ 9) ++ sapMid false ++ "G/sec"
       else if 10 ^ 6 < rate then fmtFixed 3 (rate / 10 ^ 6) ++ sapMid false ++ "M/sec"
       else if 10 ^ 3 < rate then fmtFixed 3 (rate / 10 ^ 3) ++ sapMid false ++ "K/sec"
       else fmtFixed 3 rate ++ sapMid false ++ "/sec") :=
  ⟨⟨by decide, by decide, by decide⟩,
    getComment_fallback_rate false [⟨"context-switches", "", 0, 5000000, 1, false⟩]
      ⟨"context-switches", "", 0, 5000000, 1, false⟩ 1
      (by decide) (by decide) (by decide) (by decide) (by decide)⟩

/-- Claim C5: for a `*-misses` summary whose paired reference summary (same
modifier) exists, is monitored at the same time and has nonzero count, the
comment is the miss-rate percentage `misses / reference * 100`. -/
theorem getComment_missRate (csv : Bool) (l : List CounterSummary)
    (s other : CounterSummary) (d : ℚ)
    (hE : endsWithChars s.type_name "-misses" = true)
    (hf : FindSummary l (missesOtherName s.type_name) s.modifier = some other)
    (hm : other.IsMonitoredAtTheSameTime s = true)
    (hc : other.count ≠ 0) :
    GetCommentForSummary csv l s d =
      fmtFixed 6 ((s.count : ℚ) / (other.count : ℚ) * 100) ++ "%" ++
        sapMid csv ++ "miss rate" := by
  have h1 : s.type_name ≠ "task-clock" := by
    intro h; rw [h] at hE; exact absurd hE (by decide)
  have h2 : s.type_name ≠ "cpu-clock" := by
    intro h; rw [h] at hE; exact absurd hE (by decide)
  have h3 : s.type_name ≠ "cpu-cycles" := by
    intro h; rw [h] at hE; exact absurd hE (by decide)
  have h4 : s.type_name ≠ "instructions" := by
    intro h; rw [h] at hE; exact absurd hE (by decide)
  have hinstr : commentInstructions csv l s = none := by
    unfold commentInstructions
    have hb : (s.type_name == "instructions") = false := by
      rwa [beq_eq_false_iff_ne]
    rw [hb]
    simp
  have hcb : (other.IsMonitoredAtTheSameTime s && (other.count != 0)) = true := by
    rw [hm]
    simpa using hc
  have hmiss : commentMisses csv l s =
      some (fmtFixed 6 ((s.count : ℚ) / (other.count : ℚ) * 100) ++ "%" ++
        sapMid csv ++ "miss rate") := by
    unfold commentMisses
    rw [hE]
    simp only [if_true, hf, hcb]
  unfold GetCommentForSummary
  rw [if_neg h1, if_neg h2, if_neg h3, hinstr, hmiss]

/-- Witness for C5 at the spec's example: `branch-misses` count 50 paired
with `branch-instructions` count 1000 in the same group. -/
theorem getComment_missRate_witness :
    ((endsWithChars "branch-misses" "-misses" = true) ∧
      FindSummary
        [⟨"branch-misses", "", 1, 50, 1, false⟩,
          ⟨"branch-instructions", "", 1, 1000, 1, false⟩]
        (missesOtherName "branch-misses") "" =
          some ⟨"branch-instructions", "", 1, 1000, 1, false⟩ ∧
      (⟨"branch-instructions", "", 1, 1000, 1, false⟩ :
        CounterSummary).IsMonitoredAtTheSameTime
          ⟨"branch-misses", "", 1, 50, 1, false⟩ = true ∧
      (⟨"branch-instructions", "", 1, 1000, 1, false⟩ :
        CounterSummary).count ≠ 0) ∧
    GetCommentForSummary false
        [⟨"branch-misses", "", 1, 50, 1, false⟩,
          ⟨"branch-instructions", "", 1, 1000, 1, false⟩]
        ⟨"branch-misses", "", 1, 50, 1, false⟩ 1 =
      fmtFixed 6 (((⟨"branch-misses", "", 1, 50, 1, false⟩ :
          CounterSummary).count : ℚ) /
          ((⟨"branch-instructions", "", 1, 1000, 1, false⟩ :
            CounterSummary).count : ℚ) * 100) ++ "%" ++ sapMid false ++
        "miss rate" :=
  ⟨⟨by decide, by decide, by decide, by decide⟩,
    getComment_missRate false
      [⟨"branch-misses", "", 1, 50, 1, false⟩,
        ⟨"branch-instructions", "", 1, 1000, 1, false⟩]
      ⟨"branch-misses", "", 1, 50, 1, false⟩
      ⟨"branch-instructions", "", 1, 1000, 1, false⟩ 1
      (by decide) (by decide) (by decide) (by decide)⟩

/-! ## Auto-generation: unfolding lemmas and structure -/

theorem autoGenLoop_nil (acc : List CounterSummary) : autoGenLoop acc [] = acc := by
  rw [autoGenLoop]

theorem autoGenLoop_gen (acc : List CounterSummary) (s : CounterSummary)
    (rest : List CounterSummary) (other : CounterSummary)
    (hu : s.modifier = "u")
    (hk : FindSummary (acc ++ s :: rest) s.type_name "k" = some other)
    (hm : other.IsMonitoredAtTheSameTime s = true)
    (hn : FindSummary (acc ++ s :: rest) s.type_name "" = none) :
    autoGenLoop acc (s :: rest) =
      autoGenLoop (acc ++ [s]) (rest ++ [genSummary s other]) := by
  rw [autoGenLoop]
  simp only [dif_pos hu, hk, hm, hn, if_true]

theorem autoGenLoop_skip_comb (acc : List CounterSummary) (s : CounterSummary)
    (rest : List CounterSummary) (other : CounterSummary)
    (hu : s.modifier = "u")
    (hk : FindSummary (acc ++ s :: rest) s.type_name "k" = some other)
    (hm : other.IsMonitoredAtTheSameTime s = true)
    (hn : ¬FindSummary (acc ++ s :: rest) s.type_name "" = none) :
    autoGenLoop acc (s :: rest) = autoGenLoop (acc ++ [s]) rest := by
  rw [autoGenLoop]
  simp only [dif_pos hu, hk, hm, if_true, if_neg hn]

theorem autoGenLoop_skip_mon (acc : List CounterSummary) (s : CounterSummary)
    (rest : List CounterSummary) (other : CounterSummary)
    (hu : s.modifier = "u")
    (hk : FindSummary (acc ++ s :: rest) s.type_name "k" = some other)
    (hm : ¬other.IsMonitoredAtTheSameTime s = true) :
    autoGenLoop acc (s :: rest) = autoGenLoop (acc ++ [s]) rest := by
  rw [autoGenLoop]
  simp only [dif_pos hu, hk, if_neg hm]

theorem autoGenLoop_skip_nok (acc : List CounterSummary) (s : CounterSummary)
    (rest : List CounterSummary)
    (hu : s.modifier = "u")
    (hk : FindSummary (acc ++ s :: rest) s.type_name "k" = none) :
    autoGenLoop acc (s :: rest) = autoGenLoop (acc ++ [s]) rest := by
  rw [autoGenLoop]
  simp only [dif_pos hu, hk]

theorem autoGenLoop_skip_notu (acc : List CounterSummary) (s : CounterSummary)
    (rest : List CounterSummary)
    (hu : ¬s.modifier = "u") :
    autoGenLoop acc (s :: rest) = autoGenLoop (acc ++ [s]) rest := by
  rw [autoGenLoop]
  simp only [dif_neg hu]

theorem autoGenLoop_shape (acc pending : List CounterSummary) :
    ∃ g, autoGenLoop acc pending = acc ++ pending ++ g ∧
      ∀ t ∈ g, t.modifier = "" ∧ t.auto_generated = true := by
  induction acc, pending using autoGenLoop.induct with
  | case1 acc =>
    exact ⟨[], by simp [autoGenLoop_nil], by simp⟩
  | case2 acc s rest hu other hk hm hn ih =>
    obtain ⟨g, hg, hprop⟩ := ih
    refine ⟨genSummary s other :: g, ?_, ?_⟩
    · rw [autoGenLoop_gen acc s rest other hu hk hm hn, hg]
      simp [genSummary]
    · intro t ht
      rcases List.mem_cons.mp ht with h | h
      · subst h; exact ⟨rfl, rfl⟩
      · exact hprop t h
  | case3 acc s rest hu other hk hm hn ih =>
    obtain ⟨g, hg, hprop⟩ := ih
    exact ⟨g, by rw [autoGenLoop_skip_comb acc s rest other hu hk hm hn, hg]; simp, hprop⟩
  | case4 acc s rest hu other hk hm ih =>
    obtain ⟨g, hg, hprop⟩ := ih
    exact ⟨g, by rw [autoGenLoop_skip_mon acc s rest other hu hk hm, hg]; simp, hprop⟩
  | case5 acc s rest hu hk ih =>
    obtain ⟨g, hg, hprop⟩ := ih
    exact ⟨g, by rw [autoGenLoop_skip_nok acc s rest hu hk, hg]; simp, hprop⟩
  | case6 acc s rest hu ih =>
    obtain ⟨g, hg, hprop⟩ := ih
    exact ⟨g, by rw [autoGenLoop_skip_notu acc s rest hu, hg]; simp, hprop⟩

theorem mem_autoGenLoop (acc pending : List CounterSummary)
    (t : CounterSummary) (h : t ∈ acc ++ pending) :
    t ∈ autoGenLoop acc pending := by
  obtain ⟨g, hg, _⟩ := autoGenLoop_shape acc pending
  rw [hg]
  exact List.mem_append_left g h

theorem FindSummary_append (a b : List CounterSummary) (tn m : String) :
    FindSummary (a ++ b) tn m = (FindSummary a tn m).or (FindSummary b tn m) := by
  unfold FindSummary
  exact List.find?_append

theorem FindSummary_append_no_k (x g : List CounterSummary) (tn : String)
    (hg : ∀ t ∈ g, t.modifier = "") :
    FindSummary (x ++ g) tn "k" = FindSummary x tn "k" := by
  rw [FindSummary_append]
  have hnone : FindSummary g tn "k" = none := by
    unfold FindSummary
    rw [List.find?_eq_none]
    intro t ht
    simp [hg t ht]
  rw [hnone]
  cases FindSummary x tn "k" <;> rfl

theorem FindSummary_append_ne_none (x g : List CounterSummary) (tn m : String)
    (h : FindSummary x tn m ≠ none) :
    FindSummary (x ++ g) tn m ≠ none := by
  rw [FindSummary_append]
  cases hx : FindSummary x tn m with
  | none => exact absurd hx h
  | some u => simp [Option.or]

/-- Every user-space summary whose kernel partner is found and co-monitored
already has a combined (no-modifier) summary in the collection: the
post-condition `AutoGenerateSummaries` establishes. -/
def summariesClosed (L : List CounterSummary) : Prop :=
  ∀ s ∈ L, s.modifier = "u" →
    ∀ other, FindSummary L s.type_name "k" = some other →
      other.IsMonitoredAtTheSameTime s = true →
        FindSummary L s.type_name "" ≠ none

theorem autoGenLoop_closed (acc pending : List CounterSummary) :
    (∀ s ∈ acc, s.modifier = "u" →
      ∀ other, FindSummary (acc ++ pending) s.type_name "k" = some other →
        other.IsMonitoredAtTheSameTime s = true →
          FindSummary (acc ++ pending) s.type_name "" ≠ none) →
    summariesClosed (autoGenLoop acc pending) := by
  induction acc, pending using autoGenLoop.induct with
  | case1 acc =>
    intro hinv
    rw [autoGenLoop_nil]
    intro s hs hsu other hko hmo
    exact hinv s hs hsu other (by simpa using hko) hmo ∘ (by simpa using ·)
  | case2 acc s rest hu other hk hm hn ih =>
    intro hinv
    rw [autoGenLoop_gen acc s rest other hu hk hm hn]
    apply ih
    have hfull : (acc ++ [s]) ++ (rest ++ [genSummary s other]) =
        (acc ++ s :: rest) ++ [genSummary s other] := by simp
    intro t ht htu o hko hmo
    rw [hfull] at hko ⊢
    rw [FindSummary_append_no_k _ _ _ (by simp [genSummary])] at hko
    rcases List.mem_append.mp ht with hta | hts
    · have := hinv t hta htu o hko hmo
      exact FindSummary_append_ne_none _ _ _ _ this
    · have hts' : t = s := by simpa using hts
      subst hts'
      rw [FindSummary_append, hn]
      have : FindSummary [genSummary t other] t.type_name "" =
          some (genSummary t other) := by
        unfold FindSummary genSummary
        simp
      simp [this, Option.or]
  | case3 acc s rest hu other hk hm hn ih =>
    intro hinv
    rw [autoGenLoop_skip_comb acc s rest other hu hk hm hn]
    apply ih
    have hfull : (acc ++ [s]) ++ rest = acc ++ s :: rest := by simp
    rw [hfull]
    intro t ht htu o hko hmo
    rcases List.mem_append.mp ht with hta | hts
    · exact hinv t hta htu o hko hmo
    · have hts' : t = s := by simpa using hts
      subst hts'
      exact hn
  | case4 acc s rest hu other hk hm ih =>
    intro hinv
    rw [autoGenLoop_skip_mon acc s rest other hu hk hm]
    apply ih
    have hfull : (acc ++ [s]) ++ rest = acc ++ s :: rest := by simp
    rw [hfull]
    intro t ht htu o hko hmo
    rcases List.mem_append.mp ht with hta | hts
    · exact hinv t hta htu o hko hmo
    · have hts' : t = s := by simpa using hts
      subst hts'
      rw [hk] at hko
      cases hko
      exact absurd hmo hm
  | case5 acc s rest hu hk ih =>
    intro hinv
    rw [autoGenLoop_skip_nok acc s rest hu hk]
    apply ih
    have hfull : (acc ++ [s]) ++ rest = acc ++ s :: rest := by simp
    rw [hfull]
    intro t ht htu o hko hmo
    rcases List.mem_append.mp ht with hta | hts
    · exact hinv t hta htu o hko hmo
    · have hts' : t = s := by simpa using hts
      subst hts'
      rw [hk] at hko
      cases hko
  | case6 acc s rest hu ih =>
    intro hinv
    rw [autoGenLoop_skip_notu acc s rest hu]
    apply ih
    have hfull : (acc ++ [s]) ++ rest = acc ++ s :: rest := by simp
    rw [hfull]
    intro t ht htu o hko hmo
    rcases List.mem_append.mp ht with hta | hts
    · exact hinv t hta htu o hko hmo
    · have hts' : t = s := by simpa using hts
      subst hts'
      exact absurd htu hu

theorem autoGenerateSummaries_closed (l : List CounterSummary) :
    summariesClosed (AutoGenerateSummaries l) := by
  unfold AutoGenerateSummaries
  apply autoGenLoop_closed
  intro s hs
  simp at hs

theorem autoGenLoop_id_of_closed (acc pending : List CounterSummary) :
    summariesClosed (acc ++ pending) → autoGenLoop acc pending = acc ++ pending := by
  induction acc, pending using autoGenLoop.induct with
  | case1 acc =>
    intro _
    rw [autoGenLoop_nil, List.append_nil]
  | case2 acc s rest hu other hk hm hn ih =>
    intro hclosed
    exfalso
    have hmem : s ∈ acc ++ s :: rest := by simp
    exact hclosed s hmem hu other hk hm hn
  | case3 acc s rest hu other hk hm hn ih =>
    intro hclosed
    rw [autoGenLoop_skip_comb acc s rest other hu hk hm hn]
    have hfull : (acc ++ [s]) ++ rest = acc ++ s :: rest := by simp
    rw [ih (by rw [hfull]; exact hclosed), hfull]
  | case4 acc s rest hu other hk hm ih =>
    intro hclosed
    rw [autoGenLoop_skip_mon acc s rest other hu hk hm]
    have hfull : (acc ++ [s]) ++ rest = acc ++ s :: rest := by simp
    rw [ih (by rw [hfull]; exact hclosed), hfull]
  | case5 acc s rest hu hk ih =>
    intro hclosed
    rw [autoGenLoop_skip_nok acc s rest hu hk]
    have hfull : (acc ++ [s]) ++ rest = acc ++ s :: rest := by simp
    rw [ih (by rw [hfull]; exact hclosed), hfull]
  | case6 acc s rest hu ih =>
    intro hclosed
    rw [autoGenLoop_skip_notu acc s rest hu]
    have hfull : (acc ++ [s]) ++ rest = acc ++ s :: rest := by simp
    rw [ih (by rw [hfull]; exact hclosed), hfull]

/-- Claim C4: auto-generation is idempotent — a second run of
`AutoGenerateSummaries` returns the collection unchanged, so it adds no
further summaries. -/
theorem autoGenerateSummaries_idempotent (l : List CounterSummary) :
    AutoGenerateSummaries (AutoGenerateSummaries l) = AutoGenerateSummaries l := by
  have hclosed := autoGenerateSummaries_closed l
  have h := autoGenLoop_id_of_closed [] (AutoGenerateSummaries l)
    (by simpa using hclosed)
  unfold AutoGenerateSummaries at h ⊢
  simpa using h

/-- Test for a combined (no-modifier) summary of the given type name, the
key that `AutoGenerateSummaries` checks before synthesizing. -/
def isCombinedOf (tn : String) (t : CounterSummary) : Bool :=
  t.type_name == tn && t.modifier == ""

theorem FindSummary_combined_eq_countP (L : List CounterSummary) (tn : String) :
    FindSummary L tn "" = none ↔ L.countP (isCombinedOf tn) = 0 := by
  unfold FindSummary isCombinedOf
  rw [List.find?_eq_none, List.countP_eq_zero]

theorem autoGenLoop_countP_le (tn : String) (acc pending : List CounterSummary) :
    (autoGenLoop acc pending).countP (isCombinedOf tn) ≤
      max 1 ((acc ++ pending).countP (isCombinedOf tn)) := by
  induction acc, pending using autoGenLoop.induct with
  | case1 acc =>
    rw [autoGenLoop_nil, List.append_nil]
    exact le_max_of_le_right (le_refl _)
  | case2 acc s rest hu other hk hm hn ih =>
    rw [autoGenLoop_gen acc s rest other hu hk hm hn]
    have hfull : (acc ++ [s]) ++ (rest ++ [genSummary s other]) =
        (acc ++ s :: rest) ++ [genSummary s other] := by simp
    rw [hfull] at ih
    rw [List.countP_append] at ih
    by_cases htn : s.type_name = tn
    · have hzero : (acc ++ s :: rest).countP (isCombinedOf tn) = 0 := by
        rw [← FindSummary_combined_eq_countP, ← htn]
        exact hn
      have hone : List.countP (isCombinedOf tn) [genSummary s other] = 1 := by
        simp [isCombinedOf, genSummary, htn]
      omega
    · have hzero : List.countP (isCombinedOf tn) [genSummary s other] = 0 := by
        simp [isCombinedOf, genSummary, htn]
      omega
  | case3 acc s rest hu other hk hm hn ih =>
    rw [autoGenLoop_skip_comb acc s rest other hu hk hm hn]
    have hfull : (acc ++ [s]) ++ rest = acc ++ s :: rest := by simp
    rw [hfull] at ih
    exact ih
  | case4 acc s rest hu other hk hm ih =>
    rw [autoGenLoop_skip_mon acc s rest other hu hk hm]
    have hfull : (acc ++ [s]) ++ rest = acc ++ s :: rest := by simp
    rw [hfull] at ih
    exact ih
  | case5 acc s rest hu hk ih =>
    rw [autoGenLoop_skip_nok acc s rest hu hk]
    have hfull : (acc ++ [s]) ++ rest = acc ++ s :: rest := by simp
    rw [hfull] at ih
    exact ih
  | case6 acc s rest hu ih =>
    rw [autoGenLoop_skip_notu acc s rest hu]
    have hfull : (acc ++ [s]) ++ rest = acc ++ s :: rest := by simp
    rw [hfull] at ih
    exact ih

theorem autoGenLoop_gen_mem (s other : CounterSummary)
    (acc pending : List CounterSummary) :
    s ∈ pending → s.modifier = "u" →
    FindSummary (acc ++ pending) s.type_name "k" = some other →
    other.IsMonitoredAtTheSameTime s = true →
    FindSummary (acc ++ pending) s.type_name "" = none →
    (∀ t ∈ acc ++ pending, t.modifier = "u" →
      t.type_name = s.type_name → t = s) →
    genSummary s other ∈ autoGenLoop acc pending := by
  induction acc, pending using autoGenLoop.induct with
  | case1 acc =>
    intro hs
    exact absurd hs (List.not_mem_nil s)
  | case2 acc s1 rest hu1 other1 hk1 hm1 hn1 ih =>
    intro hs hu hk hm hn huniq
    rw [autoGenLoop_gen acc s1 rest other1 hu1 hk1 hm1 hn1]
    by_cases hss : s1 = s
    · subst hss
      have hoth : other1 = other := by
        rw [hk1] at hk
        exact Option.some.inj hk
      subst hoth
      apply mem_autoGenLoop
      simp
    · have hs' : s ∈ rest := by
        rcases List.mem_cons.mp hs with h | h
        · exact absurd h.symm hss
        · exact h
      have htype : s1.type_name ≠ s.type_name := by
        intro he
        exact hss (huniq s1 (by simp) hu1 he)
      have hfull : (acc ++ [s1]) ++ (rest ++ [genSummary s1 other1]) =
          (acc ++ s1 :: rest) ++ [genSummary s1 other1] := by simp
      apply ih (List.mem_append_left _ hs') hu
      · rw [hfull, FindSummary_append_no_k _ _ _ (by simp [genSummary])]
        exact hk
      · exact hm
      · rw [hfull, FindSummary_append, hn]
        have : FindSummary [genSummary s1 other1] s.type_name "" = none := by
          unfold FindSummary genSummary
          simp [htype]
        rw [this]
        rfl
      · rw [hfull]
        intro t ht htu htt
        rcases List.mem_append.mp ht with h | h
        · exact huniq t h htu htt
        · have : t = genSummary s1 other1 := by simpa using h
          subst this
          exact absurd htu (by simp [genSummary])
  | case3 acc s1 rest hu1 other1 hk1 hm1 hn1 ih =>
    intro hs hu hk hm hn huniq
    rw [autoGenLoop_skip_comb acc s1 rest other1 hu1 hk1 hm1 hn1]
    have hfull : (acc ++ [s1]) ++ rest = acc ++ s1 :: rest := by simp
    by_cases hss : s1 = s
    · subst hss
      exact absurd hn hn1
    · have hs' : s ∈ rest := by
        rcases List.mem_cons.mp hs with h | h
        · exact absurd h.symm hss
        · exact h
      apply ih hs' hu (by rw [hfull]; exact hk) hm (by rw [hfull]; exact hn)
      rw [hfull]
      exact huniq
  | case4 acc s1 rest hu1 other1 hk1 hm1 ih =>
    intro hs hu hk hm hn huniq
    rw [autoGenLoop_skip_mon acc s1 rest other1 hu1 hk1 hm1]
    have hfull : (acc ++ [s1]) ++ rest = acc ++ s1 :: rest := by simp
    by_cases hss : s1 = s
    · subst hss
      rw [hk1] at hk
      cases Option.some.inj hk
      exact absurd hm hm1
    · have hs' : s ∈ rest := by
        rcases List.mem_cons.mp hs with h | h
        · exact absurd h.symm hss
        · exact h
      apply ih hs' hu (by rw [hfull]; exact hk) hm (by rw [hfull]; exact hn)
      rw [hfull]
      exact huniq
  | case5 acc s1 rest hu1 hk1 ih =>
    intro hs hu hk hm hn huniq
    rw [autoGenLoop_skip_nok acc s1 rest hu1 hk1]
    have hfull : (acc ++ [s1]) ++ rest = acc ++ s1 :: rest := by simp
    by_cases hss : s1 = s
    · subst hss
      rw [hk1] at hk
      cases hk
    · have hs' : s ∈ rest := by
        rcases List.mem_cons.mp hs with h | h
        · exact absurd h.symm hss
        · exact h
      apply ih hs' hu (by rw [hfull]; exact hk) hm (by rw [hfull]; exact hn)
      rw [hfull]
      exact huniq
  | case6 acc s1 rest hu1 ih =>
    intro hs hu hk hm hn huniq
    rw [autoGenLoop_skip_notu acc s1 rest hu1]
    have hfull : (acc ++ [s1]) ++ rest = acc ++ s1 :: rest := by simp
    by_cases hss : s1 = s
    · subst hss
      exact absurd hu hu1
    · have hs' : s ∈ rest := by
        rcases List.mem_cons.mp hs with h | h
        · exact absurd h.symm hss
        · exact h
      apply ih hs' hu (by rw [hfull]; exact hk) hm (by rw [hfull]; exact hn)
      rw [hfull]
      exact huniq

/-- Claim C3: for a user-space summary `s` whose kernel-space partner of the
same type name exists, is monitored at the same time, with no combined
(no-modifier) summary of that type present (summaries being uniquely keyed by
(type name, modifier) as the data model states, so `s` is the only user-space
summary of its type), auto-generation adds exactly one synthesized summary:
count the sum of the two counts (assumed not to wrap `uint64_t`), scale and
group id those of the user-space summary, and `auto_generated = true`. -/
theorem autoGenerateSummaries_user_kernel (l : List CounterSummary)
    (s other : CounterSummary)
    (hs : s ∈ l) (hu : s.modifier = "u")
    (hk : FindSummary l s.type_name "k" = some other)
    (hm : other.IsMonitoredAtTheSameTime s = true)
    (hnone : FindSummary l s.type_name "" = none)
    (huniq : ∀ t ∈ l, t.modifier = "u" → t.type_name = s.type_name → t = s)
    (hof : s.count + other.count < U64) :
    ({ type_name := s.type_name, modifier := "", group_id := s.group_id,
       count := s.count + other.count, scale := s.scale,
       auto_generated := true } : CounterSummary) ∈ AutoGenerateSummaries l ∧
    (AutoGenerateSummaries l).countP (isCombinedOf s.type_name) = 1 := by
  have hgen : genSummary s other =
      { type_name := s.type_name, modifier := "", group_id := s.group_id,
        count := s.count + other.count, scale := s.scale,
        auto_generated := true } := by
    unfold genSummary
    rw [Nat.mod_eq_of_lt hof]
  have hmem : genSummary s other ∈ AutoGenerateSummaries l := by
    unfold AutoGenerateSummaries
    exact autoGenLoop_gen_mem s other [] l hs hu (by simpa using hk) hm
      (by simpa using hnone) (by simpa using huniq)
  constructor
  · rw [← hgen]
    exact hmem
  · have hle : (AutoGenerateSummaries l).countP (isCombinedOf s.type_name) ≤
        max 1 (l.countP (isCombinedOf s.type_name)) := by
      have := autoGenLoop_countP_le s.type_name [] l
      simpa [AutoGenerateSummaries] using this
    have hzero : l.countP (isCombinedOf s.type_name) = 0 :=
      (FindSummary_combined_eq_countP l s.type_name).mp hnone
    have hpos : 0 < (AutoGenerateSummaries l).countP (isCombinedOf s.type_name) := by
      rw [List.countP_pos_iff]
      refine ⟨genSummary s other, hmem, ?_⟩
      simp [isCombinedOf, genSummary]
    omega

/-- Witness for C3 at the spec's example: `branch-misses:u` count 30 and
`branch-misses:k` count 20 in the same group, no combined summary present;
the synthesized `branch-misses` summary has count 50. -/
theorem autoGenerateSummaries_user_kernel_witness :
    ((⟨"branch-misses", "u", 1, 30, 1, false⟩ : CounterSummary) ∈
        [(⟨"branch-misses", "u", 1, 30, 1, false⟩ : CounterSummary),
          ⟨"branch-misses", "k", 1, 20, 1, false⟩] ∧
      FindSummary
        [⟨"branch-misses", "u", 1, 30, 1, false⟩,
          ⟨"branch-misses", "k", 1, 20, 1, false⟩] "branch-misses" "k" =
        some ⟨"branch-misses", "k", 1, 20, 1, false⟩ ∧
      FindSummary
        [⟨"branch-misses", "u", 1, 30, 1, false⟩,
          ⟨"branch-misses", "k", 1, 20, 1, false⟩] "branch-misses" "" = none ∧
      30 + 20 < U64) ∧
    (({ type_name := "branch-misses", modifier := "", group_id := 1,
        count := 30 + 20, scale := 1, auto_generated := true } :
          CounterSummary) ∈
        AutoGenerateSummaries
          [⟨"branch-misses", "u", 1, 30, 1, false⟩,
            ⟨"branch-misses", "k", 1, 20, 1, false⟩] ∧
      (AutoGenerateSummaries
          [⟨"branch-misses", "u", 1, 30, 1, false⟩,
            ⟨"branch-misses", "k", 1, 20, 1, false⟩]).countP
        (isCombinedOf "branch-misses") = 1) :=
  ⟨⟨by decide, by decide, by decide, by decide⟩,
    autoGenerateSummaries_user_kernel
      [⟨"branch-misses", "u", 1, 30, 1, false⟩,
        ⟨"branch-misses", "k", 1, 20, 1, false⟩]
      ⟨"branch-misses", "u", 1, 30, 1, false⟩
      ⟨"branch-misses", "k", 1, 20, 1, false⟩
      (by decide) (by decide) (by decide) (by decide) (by decide)
      (by decide) (by decide)⟩
